import Mathlib

/-!
Shallow embedding of the reconciliation core of the AHC registry bot
(source files `import_1C.py`, `import_Bitrix.py`, `import_invoice.py`).

Text is modelled as lists of Unicode codepoints (`List Nat`), so that the
Python string operations (`str.lower`, `str.strip`, regex character classes
over ASCII and Cyrillic) become executable Nat-level functions.  Dates are
modelled as proleptic-Gregorian ordinals (`rataDie`), so that
`pd.Timedelta(days = k)` addition is plain `Nat` addition.  Pandas NA/NaN
cells are modelled as `Option`; a pandas left merge on deduplicated keys is
modelled as a first-match lookup per registry row (note that pandas merge
treats equal NA join keys as matching, which plain `Option` equality also
does).  Amounts enter the claims only through equality on join keys, so they
are modelled as `Option Int`.
-/

/-- Codepoints of a string literal. -/
def s2l (s : String) : List Nat := s.data.map Char.toNat

/-- Python `\d` restricted to ASCII digits (the only digits in play). -/
def isDigitCp (n : Nat) : Bool := 48 ≤ n && n ≤ 57

/-- Python `\s` (ASCII whitespace). -/
def isSpaceCp (n : Nat) : Bool :=
  n == 32 || n == 9 || n == 10 || n == 13 || n == 11 || n == 12

/-- Python `str.lower` for the alphabets the program manipulates:
ASCII `A`-`Z` and Cyrillic `А`-`Я`, `Ё`. -/
def lowerCp (n : Nat) : Nat :=
  if 65 ≤ n ∧ n ≤ 90 then n + 32
  else if 1040 ≤ n ∧ n ≤ 1071 then n + 32
  else if n = 1025 then 1105
  else n

/-- Lowercase an entire text. -/
def lowerL (l : List Nat) : List Nat := l.map lowerCp

/-- Python regex `\w` over the character ranges in play:
ASCII alphanumerics, underscore, and the Cyrillic block. -/
def isWordCp (n : Nat) : Bool :=
  isDigitCp n || (65 ≤ n && n ≤ 90) || (97 ≤ n && n ≤ 122) || n == 95 ||
  (1024 ≤ n && n ≤ 1279)

/-- Regex class `[А-ЯЁ]` (uppercase Cyrillic). -/
def isCyrUpperCp (n : Nat) : Bool := (1040 ≤ n && n ≤ 1071) || n == 1025

/-- Python `str.strip` (drop whitespace on both ends). -/
def stripL (l : List Nat) : List Nat :=
  ((l.dropWhile isSpaceCp).reverse.dropWhile isSpaceCp).reverse

/-- Helper of `collapseWs`: the flag records whether the previous emitted
position sits inside a whitespace run already replaced by one space. -/
def collapseWsAux : List Nat → Bool → List Nat
  | [], _ => []
  | c :: rest, prev =>
    if isSpaceCp c then
      if prev then collapseWsAux rest true else 32 :: collapseWsAux rest true
    else c :: collapseWsAux rest false

/-- Python `re.sub(r'\s+', ' ', t)`: every whitespace run becomes one space. -/
def collapseWs (l : List Nat) : List Nat := collapseWsAux l false

/-- Pandas `DataFrame.drop_duplicates(subset = key)` (keep the first
occurrence of every key). -/
def dedup_by {α κ : Type} [DecidableEq κ] (key : α → κ) (l : List α) : List α :=
  go l []
where
  go : List α → List κ → List α
    | [], _ => []
    | a :: rest, seen =>
      if seen.contains (key a) then go rest seen
      else a :: go rest (key a :: seen)

/-- Decimal digit list of a natural number (Python `str(n)` / f-string). -/
def digitsOf (n : Nat) : List Nat := (Nat.toDigits 10 n).map Char.toNat

/-- Natural number denoted by a list of ASCII digit codepoints. -/
def natFromDigits (l : List Nat) : Nat := l.foldl (fun a d => a * 10 + (d - 48)) 0

/-- Gregorian leap year (as in Python `datetime`). -/
def isLeap (y : Nat) : Bool := (y % 4 == 0 && y % 100 != 0) || y % 400 == 0

/-- Number of days of month `m` of year `y`. -/
def daysInMonth (y m : Nat) : Nat :=
  if m = 2 then (if isLeap y then 29 else 28)
  else if m = 4 ∨ m = 6 ∨ m = 9 ∨ m = 11 then 30
  else 31

/-- Whether `datetime(y, m, d)` constructs without raising `ValueError`. -/
def validDate (y m d : Nat) : Bool :=
  1 ≤ y && y ≤ 9999 && 1 ≤ m && m ≤ 12 && 1 ≤ d && d ≤ daysInMonth y m

/-- Days of year `y` strictly before month `m`. -/
def daysBeforeMonth (y m : Nat) : Nat :=
  (List.range (m - 1)).foldl (fun acc i => acc + daysInMonth y (i + 1)) 0

/-- Proleptic-Gregorian ordinal of a calendar date; adding `k` days to a
timestamp is adding `k` to its ordinal. -/
def rataDie (y m d : Nat) : Nat :=
  365 * (y - 1) + (y - 1) / 4 - (y - 1) / 100 + (y - 1) / 400 +
    daysBeforeMonth y m + d

/-- One row of the registry (the `Реестр АХЧ` sheet) after
`prepare_register`: the invoice-number column is a string column with NaN
filled by the empty string, the amount column is numeric with possible NaN,
and every other modelled column may hold NA. -/
structure RegRow where
  invoiceNo : List Nat
  amount : Option Int
  paymentStatus : Option (List Nat)
  obj : Option (List Nat)
  tmc : Option (List Nat)
  idBitrix : Option Int
  taskId : Option (List Nat)
  supplier : Option (List Nat)
  invoiceDate : Option Nat
  control : Option Nat
  ledger : Option (List Nat)
deriving DecidableEq

/-- Default row used with `List.getD` in row-indexed statements. -/
def dRow : RegRow :=
  { invoiceNo := [], amount := none, paymentStatus := none, obj := none,
    tmc := none, idBitrix := none, taskId := none, supplier := none,
    invoiceDate := none, control := none, ledger := none }

theorem getD_map_of_lt {α β : Type} (f : α → β) (l : List α) (i : Nat)
    (hi : i < l.length) (a : α) (b : β) :
    (l.map f).getD i b = f (l.getD i a) := by
  induction l generalizing i with
  | nil => simp at hi
  | cons x xs ih =>
    cases i with
    | zero => simp [List.getD]
    | succ j =>
      simp only [List.map, List.getD_cons_succ]
      exact ih j (Nat.lt_of_succ_lt_succ hi)

/-! ## Bank-statement (1C) merge, from the source file `import_1C.py` -/

namespace OneC

/-- Terminal statuses of the conflict-resolution rule
(`["Оплачено", "Подготовлено"]` in `update_payment_status`). -/
def terminalStatuses : List (List Nat) := [s2l "Оплачено", s2l "Подготовлено"]

/-- `Series.isin(["Оплачено", "Подготовлено"])` for one cell: NaN is in no
list. -/
def isTerminal (st : Option (List Nat)) : Bool :=
  match st with
  | some v => terminalStatuses.contains v
  | none => false

/-- One row of the prepared 1C export (`prepare_export_1C`): the extracted
invoice number is a plain string column (astype(str) turns even None into a
string), the amount is numeric with possible NaN, the `Состояние` status may
be NaN. -/
structure ExportRow where
  invoiceNo : List Nat
  amount : Option Int
  status : Option (List Nat)
deriving DecidableEq

/-- The left merge of one registry row against the deduplicated export on
`('№ счета', 'Сумма')`, projected to the incoming status column
(`Статус оплаты_новый`); `none` when the row has no match or the matched
status is NaN. -/
def lookupStatus1C (dedup : List ExportRow) (r : RegRow) : Option (List Nat) :=
  (dedup.find? (fun e => decide (e.invoiceNo = r.invoiceNo ∧ e.amount = r.amount))).bind
    (fun e => e.status)

/-- Row-level body of `update_payment_status`:
`mask = merged status notna AND current status not in terminal set`. -/
def update_payment_status_row (dedup : List ExportRow) (r : RegRow) : RegRow :=
  if (lookupStatus1C dedup r).isSome && !(isTerminal r.paymentStatus) then
    { r with paymentStatus := lookupStatus1C dedup r }
  else r

/-- `update_payment_status(df_export, df_register)` from `import_1C.py`:
deduplicate the export on `('Номер счета', 'Сумма')`, left-merge the
registry against it and overwrite non-terminal statuses where the merge
brought a non-null status. -/
def update_payment_status (df_export : List ExportRow)
    (df_register : List RegRow) : List RegRow :=
  df_register.map
    (update_payment_status_row (dedup_by (fun e => (e.invoiceNo, e.amount)) df_export))

/-- The supplier payment-term table of `update_date_payment`. -/
def days_dict : List (List Nat × Nat) :=
  [(s2l "ип шайдулин", 30), (s2l "технология 21век", 0),
   (s2l "корексмаркет", 28), (s2l "регион-снабжение", 28),
   (s2l "курышев", 25), (s2l "упаковочные материалы", 30),
   (s2l "ип павлов е.в.", 0)]

/-- Python `str(cell)` for a possibly-NaN string cell (`str(nan) = "nan"`). -/
def pyStr (o : Option (List Nat)) : List Nat := o.getD (s2l "nan")

/-- `days_dict.get(str(row['Поставщик']).lower().strip(), 0)`. -/
def days_for (supplier : Option (List Nat)) : Nat :=
  let key := stripL (lowerL (pyStr supplier))
  ((days_dict.find? (fun p => decide (p.1 = key))).map (fun p => p.2)).getD 0

/-- Row-level body of `update_date_payment`: rows with a non-null invoice
date get `Контроль оплаты := Дата счета + days`; other rows are untouched. -/
def update_date_payment_row (r : RegRow) : RegRow :=
  match r.invoiceDate with
  | some d => { r with control := some (d + days_for r.supplier) }
  | none => r

/-- `update_date_payment(df_register)` from `import_1C.py`. -/
def update_date_payment (df_register : List RegRow) : List RegRow :=
  df_register.map update_date_payment_row

end OneC

/-! ## Task-tracker (Bitrix) merge, from the source file `import_Bitrix.py` -/

namespace Bitrix

/-- One row of the prepared Bitrix export after `prepare_bitrix` and
`preprocess_bitrix_data` (columns renamed to `№ счета`, `Новый статус`,
`№ задачи Битрикс`; duplicates on `('№ задачи Битрикс', 'Сумма')` already
dropped by `preprocess_bitrix_data`, which does not matter for the claims
because every merge below deduplicates again on its own join key). -/
structure BitrixRow where
  id : Option Int
  things : Option (List Nat)
  object : Option (List Nat)
  invoiceNo : Option (List Nat)
  amount : Option Int
  newStatus : Option (List Nat)
  taskId : Option (List Nat)
deriving DecidableEq

/-- Join predicate of the merges on `('№ счета', 'Сумма')`: the registry
side is a NaN-free string column, the Bitrix side may hold NA (which then
matches nothing on the registry side). -/
def bitrixKeyMatch (b : BitrixRow) (r : RegRow) : Bool :=
  decide (b.invoiceNo = some r.invoiceNo ∧ b.amount = r.amount)

/-- The left merge of one registry row against a deduplicated Bitrix frame
on `('№ счета', 'Сумма')`. -/
def lookupBitrix (dedup : List BitrixRow) (r : RegRow) : Option BitrixRow :=
  dedup.find? (fun b => bitrixKeyMatch b r)

/-- Row-level body of `update_register_payment_status_bitrix`:
`mask = merged 'Новый статус' notna AND current status not in terminal set`. -/
def update_register_payment_status_bitrix_row (dedup : List BitrixRow)
    (r : RegRow) : RegRow :=
  if ((lookupBitrix dedup r).bind (fun b => b.newStatus)).isSome &&
      !(OneC.isTerminal r.paymentStatus) then
    { r with paymentStatus := (lookupBitrix dedup r).bind (fun b => b.newStatus) }
  else r

/-- `update_register_payment_status_bitrix(df_register, df_bitrix)`. -/
def update_register_payment_status_bitrix (df_register : List RegRow)
    (df_bitrix : List BitrixRow) : List RegRow :=
  df_register.map
    (update_register_payment_status_bitrix_row
      (dedup_by (fun b => (b.invoiceNo, b.amount)) df_bitrix))

/-- The `stop_words` list of `update_register_id_payment_object_bitrix`,
faithful to the source bytes: in the first and third entries the initial
letter is LATIN SMALL LETTER C (codepoint 99), not Cyrillic `с` (1089) —
the source file really spells `'cчет'` and `'cчета'` with a Latin `c`. -/
def stop_words : List (List Nat) :=
  [s2l "cчет", s2l "расходы", s2l "cчета", s2l "расходов", s2l "ахч"]

/-- Regex `\b` between an optional left character and an optional right
character: exactly one of the two sides is a word character. -/
def boundaryOk (prev next : Option Nat) : Bool :=
  (match prev with | none => false | some c => isWordCp c) !=
  (match next with | none => false | some c => isWordCp c)

/-- Literal-prefix test on codepoint lists. -/
def leadsWith : List Nat → List Nat → Bool
  | [], _ => true
  | _ :: _, [] => false
  | p :: ps, c :: cs => p == c && leadsWith ps cs

/-- One attempt of `\b(?:w1|...|wn)\b` at the current position: the
alternatives are tried in list order, each with both boundary checks
(`prev` is the character just before the position). -/
def stopMatchAt (ws : List (List Nat)) (prev : Option Nat) (l : List Nat) :
    Option (List Nat) :=
  ws.find? (fun w =>
    decide (w ≠ []) && leadsWith w l && boundaryOk prev l.head? &&
    boundaryOk w.getLast? (l.drop w.length).head?)

/-- Fuel-indexed scan of `re.sub(pattern, '', text)` for the stop-word
pattern: at every position try a stop-word match; on a match drop it and
continue after it, otherwise emit the character.  Every step consumes at
least one character, so fuel `l.length` computes the full substitution. -/
def removeStopsFuel (ws : List (List Nat)) :
    Nat → Option Nat → List Nat → List Nat
  | 0, _, l => l
  | _ + 1, _, [] => []
  | fuel + 1, prev, c :: rest =>
    match stopMatchAt ws prev (c :: rest) with
    | some w => removeStopsFuel ws fuel w.getLast? (rest.drop (w.length - 1))
    | none => c :: removeStopsFuel ws fuel (some c) rest

/-- `re.sub(r'\b(?:...)\b', '', text)` over the whole text. -/
def removeStops (ws : List (List Nat)) (l : List Nat) : List Nat :=
  removeStopsFuel ws l.length none l

/-- `clean_text_from_stop_words_precise(text, stop_words)`: NA is returned
unchanged; otherwise the text is lowercased, the stop words are removed as
whole words, whitespace runs are collapsed to one space and the ends are
stripped. -/
def clean_text_from_stop_words_precise (text : Option (List Nat))
    (ws : List (List Nat)) : Option (List Nat) :=
  match text with
  | none => none
  | some t => some (stripL (collapseWs (removeStops ws (lowerL t))))

/-- Row-level body of `update_register_id_payment_object_bitrix`: the three
fill-only updates (`Объект`, `ID_Счет_Bitrix`, `ТМЦ`) in source order, each
guarded by `merged notna AND registry isna`; the `Things` text is cleaned
from stop words before the `ТМЦ` update. -/
def update_register_id_payment_object_bitrix_row (dedup : List BitrixRow)
    (r : RegRow) : RegRow :=
  let m := lookupBitrix dedup r
  let r1 :=
    match m.bind (fun b => b.object) with
    | some v => if r.obj = none then { r with obj := some v } else r
    | none => r
  let r2 :=
    match m.bind (fun b => b.id) with
    | some v => if r1.idBitrix = none then { r1 with idBitrix := some v } else r1
    | none => r1
  match clean_text_from_stop_words_precise (m.bind (fun b => b.things)) stop_words with
  | some v => if r2.tmc = none then { r2 with tmc := some v } else r2
  | none => r2

/-- `update_register_id_payment_object_bitrix(df_register, df_bitrix)`. -/
def update_register_id_payment_object_bitrix (df_register : List RegRow)
    (df_bitrix : List BitrixRow) : List RegRow :=
  df_register.map
    (update_register_id_payment_object_bitrix_row
      (dedup_by (fun b => (b.invoiceNo, b.amount)) df_bitrix))

/-- Row-level body of `update_register_id_task_bitrix`: the registry task
column first has `''` replaced by NA, then NA cells are filled from the
merge, then remaining NA becomes `''` again (`fillna('')`). -/
def update_register_id_task_bitrix_row (dedup : List BitrixRow)
    (r : RegRow) : RegRow :=
  let m := lookupBitrix dedup r
  let t0 := if r.taskId = some [] then none else r.taskId
  let mt := m.bind (fun b => b.taskId)
  let t1 := if t0.isNone && mt.isSome then mt else t0
  { r with taskId := if t1.isNone then some [] else t1 }

/-- `update_register_id_task_bitrix(df_register, df_bitrix)`. -/
def update_register_id_task_bitrix (df_register : List RegRow)
    (df_bitrix : List BitrixRow) : List RegRow :=
  df_register.map
    (update_register_id_task_bitrix_row
      (dedup_by (fun b => (b.invoiceNo, b.amount)) df_bitrix))

/-- The registry as loaded by `load_ahx_data`/`prepare_register` together
with the schema fact the claims need: whether the required column
`№ задачи Битрикс` is present in the sheet at all. -/
structure RegFrame where
  hasTaskCol : Bool
  rows : List RegRow
deriving DecidableEq

/-- Row-level body of `fill_invoice_numbers_from_bitrix`: join on
`('№ задачи Битрикс', 'Сумма')` (pandas matches equal NA keys, as does
`Option` equality here), then fill only empty invoice numbers. -/
def fill_invoice_numbers_row (dedup : List BitrixRow) (r : RegRow) : RegRow :=
  let m := dedup.find? (fun b => decide (b.taskId = r.taskId ∧ b.amount = r.amount))
  let inv0 : Option (List Nat) := if r.invoiceNo = [] then none else some r.invoiceNo
  let mInv := m.bind (fun b => b.invoiceNo)
  let inv1 := if inv0.isNone && mInv.isSome then mInv else inv0
  { r with invoiceNo := inv1.getD [] }

/-- The `KeyError` message raised when the registry lacks the task column. -/
def key_error_msg : List Nat := s2l "❌ В реестре отсутствует столбец '№ задачи Битрикс'."

/-- `fill_invoice_numbers_from_bitrix(df_register, df_bitrix)`: raises
`KeyError` (modelled as `Except.error`) when the registry has no
`№ задачи Битрикс` column, otherwise fills empty invoice numbers from the
Bitrix rows deduplicated on `('№ задачи Битрикс', 'Сумма')`. -/
def fill_invoice_numbers_from_bitrix (df_register : RegFrame)
    (df_bitrix : List BitrixRow) : Except (List Nat) RegFrame :=
  if df_register.hasTaskCol then
    .ok { df_register with
          rows := df_register.rows.map
            (fill_invoice_numbers_row
              (dedup_by (fun b => (b.taskId, b.amount)) df_bitrix)) }
  else .error key_error_msg

/-- `replace_nan_in_dataframe`: `fillna('')` on the object (string) columns;
numeric columns are left alone (the `fillna(0)` branch is commented out in
the source). -/
def replace_nan_in_dataframe (df : List RegRow) : List RegRow :=
  df.map (fun r =>
    { r with
      paymentStatus := some (r.paymentStatus.getD []),
      obj := some (r.obj.getD []),
      tmc := some (r.tmc.getD []),
      supplier := some (r.supplier.getD []),
      taskId := some (r.taskId.getD []),
      ledger := some (r.ledger.getD []) })

/-- Core of `run_pipeline` of `import_Bitrix.py`, from the prepared frames
onward.  The first component is the chat message returned to the bot; the
second is the frame handed to `update_excel_file`, `none` when the writer is
never invoked (so the registry file stays untouched).  A `KeyError e` is
caught by the generic `except Exception` branch, whose message interpolates
`str(e)`, i.e. the `repr` of the message — double-quoted (codepoint 34)
because the message itself contains apostrophes. -/
def run_pipeline (df_bitrix : List BitrixRow) (df_register : RegFrame) :
    List Nat × Option (List RegRow) :=
  match fill_invoice_numbers_from_bitrix df_register df_bitrix with
  | .error msg =>
    (s2l "❌ Ошибка при обработке: " ++ [34] ++ msg ++ [34], none)
  | .ok f1 =>
    let r2 := update_register_payment_status_bitrix f1.rows df_bitrix
    let r3 := update_register_id_payment_object_bitrix r2 df_bitrix
    let r4 := OneC.update_date_payment r3
    let r5 := update_register_id_task_bitrix r4 df_bitrix
    let r6 := replace_nan_in_dataframe r5
    (s2l "✅ Данные из Bitrix успешно обновлены в Реестре АХЧ.", some r6)

end Bitrix

/-! ## PDF invoice path, from the source file `import_invoice.py` -/

namespace Invoice

/-- The literal of the amount pattern `(?:на сумму)\D*([0-9\s.,]+)`. -/
def naSummu : List Nat := s2l "на сумму"

/-- Case-insensitive literal-prefix test (the pattern literal is lowercase,
`re.IGNORECASE` lowercases the text side). -/
def ciLeadsWith : List Nat → List Nat → Bool
  | [], _ => true
  | _ :: _, [] => false
  | p :: ps, c :: cs => p == lowerCp c && ciLeadsWith ps cs

/-- The character class `[0-9\s.,]` of the amount capture group. -/
def amtClass (c : Nat) : Bool := isDigitCp c || isSpaceCp c || c == 46 || c == 44

/-- Backtracking of the greedy `\D*` before the capture group `([0-9\s.,]+)`:
starting from the maximal non-digit prefix, retreat until the group can
match at least one character; the group itself is greedy. -/
def groupBacktrack (t : List Nat) : Nat → Option (List Nat)
  | 0 =>
    match t.head? with
    | some c => if amtClass c then some (t.takeWhile amtClass) else none
    | none => none
  | k + 1 =>
    let s := t.drop (k + 1)
    match s.head? with
    | some c => if amtClass c then some (s.takeWhile amtClass) else groupBacktrack t k
    | none => groupBacktrack t k

/-- Try `\D*([0-9\s.,]+)` on the text following the phrase. -/
def matchAfterPhrase (t : List Nat) : Option (List Nat) :=
  groupBacktrack t (t.takeWhile (fun c => !isDigitCp c)).length

/-- `re.search` for the amount pattern: try every start position from the
left; at a position the pattern matches iff the phrase matches there
case-insensitively and the capture group finds at least one character. -/
def searchNaSummu : List Nat → Option (List Nat)
  | [] => none
  | c :: rest =>
    if ciLeadsWith naSummu (c :: rest) then
      match matchAfterPhrase ((c :: rest).drop naSummu.length) with
      | some g => some g
      | none => searchNaSummu rest
    else searchNaSummu rest

/-- Split a codepoint list on a separator (Python `str.split`-like, used to
model number parsing around the decimal point). -/
def splitOnCp (sep : Nat) : List Nat → List (List Nat)
  | [] => [[]]
  | c :: rest =>
    let r := splitOnCp sep rest
    if c = sep then [] :: r
    else
      match r with
      | h :: t => (c :: h) :: t
      | [] => [[c]]

/-- `pd.to_numeric(s, errors='coerce')` on a cleaned amount string (only
digits and dots can occur here): one optional decimal point, at least one
digit overall; anything else coerces to NaN (`none`).  Decimal values are
modelled as exact rationals. -/
def parseDecimal (cs : List Nat) : Option ℚ :=
  if cs = [] then none
  else
    match splitOnCp 46 cs with
    | [a] => if a.all isDigitCp && decide (a ≠ []) then some (mkRat (natFromDigits a) 1) else none
    | [a, b] =>
      if a.all isDigitCp && b.all isDigitCp && decide (a ≠ [] ∨ b ≠ []) then
        some (mkRat (natFromDigits a * 10 ^ b.length + natFromDigits b) (10 ^ b.length))
      else none
    | _ => none

/-- `extract_amount(text)` from `import_invoice.py`: search the pattern,
strip the captured group, drop every character outside `[\d.,]`, turn the
decimal comma into a point and coerce to a number; `none` when the pattern
does not match or the remainder does not parse. -/
def extract_amount (text : List Nat) : Option ℚ :=
  match searchNaSummu text with
  | none => none
  | some g =>
    let amount_str := stripL g
    let cleaned := amount_str.filter (fun c => isDigitCp c || c == 46 || c == 44)
    let dotted := cleaned.map (fun c => if c = 44 then 46 else c)
    parseDecimal dotted

/-- Whether the phrase `на сумму` occurs case-insensitively anywhere. -/
def hasPhrase : List Nat → Bool
  | [] => false
  | c :: rest => ciLeadsWith naSummu (c :: rest) || hasPhrase rest

/-- The month-name table of `get_date_from_line`. -/
def month_names : List (List Nat × Nat) :=
  [(s2l "января", 1), (s2l "февраля", 2), (s2l "марта", 3), (s2l "апреля", 4),
   (s2l "мая", 5), (s2l "июня", 6), (s2l "июля", 7), (s2l "августа", 8),
   (s2l "сентября", 9), (s2l "октября", 10), (s2l "ноября", 11), (s2l "декабря", 12)]

/-- Greedy `\d{1,2}\.`: two digits before the dot if possible, else one. -/
def matchDayDot (l : List Nat) : Option (Nat × List Nat) :=
  match l with
  | a :: b :: c :: rest =>
    if isDigitCp a && isDigitCp b && decide (c = 46) then
      some ((a - 48) * 10 + (b - 48), rest)
    else if isDigitCp a && decide (b = 46) then some (a - 48, c :: rest)
    else none
  | [a, b] => if isDigitCp a && decide (b = 46) then some (a - 48, []) else none
  | _ => none

/-- `\d{4}` (what follows the four digits is unconstrained). -/
def matchYear4 (l : List Nat) : Option Nat :=
  match l with
  | a :: b :: c :: d :: _ =>
    if [a, b, c, d].all isDigitCp then some (natFromDigits [a, b, c, d]) else none
  | _ => none

/-- One attempt of `(\d{1,2})\.(\d{1,2})\.(\d{4})` at the current position,
returning `(day, month, year)`. -/
def matchNumDateAt (l : List Nat) : Option (Nat × Nat × Nat) :=
  (matchDayDot l).bind (fun p =>
    (matchDayDot p.2).bind (fun q =>
      (matchYear4 q.2).map (fun y => (p.1, q.1, y))))

/-- `re.search` for the numeric date pattern: the match at the leftmost
possible start position. -/
def firstNumDate : List Nat → Option (Nat × Nat × Nat)
  | [] => none
  | c :: rest =>
    match matchNumDateAt (c :: rest) with
    | some t => some t
    | none => firstNumDate rest

/-- The class `[а-яё]` under `re.IGNORECASE` (so also `А-Я`, `Ё`). -/
def isMonthCp (c : Nat) : Bool :=
  (1072 ≤ c && c ≤ 1103) || c == 1105 || (1040 ≤ c && c ≤ 1071) || c == 1025

/-- After the day digits: `\s*([а-яё]+)\s+(\d{4})\s*(?:г\.?)?`, returning
the month word, the year and the rest of the text after the whole match
(`finditer` continues from there). -/
def afterDay (rest : List Nat) : Option (List Nat × Nat × List Nat) :=
  let t := rest.dropWhile isSpaceCp
  let mw := t.takeWhile isMonthCp
  if mw = [] then none
  else
    let t2 := t.drop mw.length
    let sp := t2.takeWhile isSpaceCp
    if sp = [] then none
    else
      let t3 := t2.drop sp.length
      match t3 with
      | a :: b :: c :: d :: r =>
        if [a, b, c, d].all isDigitCp then
          let r1 := r.dropWhile isSpaceCp
          let r2 :=
            match r1 with
            | g :: rr =>
              if lowerCp g = 1075 then
                match rr with
                | 46 :: rrr => rrr
                | _ => rr
              else r1
            | [] => r1
          some (mw, natFromDigits [a, b, c, d], r2)
        else none
      | _ => none

/-- One attempt of the word-date pattern at the current position, with the
greedy-then-backtracking `\d{1,2}` day: returns
`(day, month word, year, rest after the match)`. -/
def matchWordDateAt (l : List Nat) : Option (Nat × List Nat × Nat × List Nat) :=
  match l with
  | a :: b :: rest =>
    if isDigitCp a && isDigitCp b then
      match afterDay rest with
      | some (mw, y, r) => some ((a - 48) * 10 + (b - 48), mw, y, r)
      | none =>
        match afterDay (b :: rest) with
        | some (mw, y, r) => some (a - 48, mw, y, r)
        | none => none
    else if isDigitCp a then
      (afterDay (b :: rest)).map (fun p => (a - 48, p.1, p.2.1, p.2.2))
    else none
  | [a] =>
    if isDigitCp a then (afterDay []).map (fun p => (a - 48, p.1, p.2.1, p.2.2))
    else none
  | [] => none

/-- The `finditer` loop of strategy 2: scan matches left to right
(continuing after each match), look the lowercased month word up in the
table, return the first valid calendar date, skip invalid ones.  Fuel
`l.length` is enough because every step consumes at least one character. -/
def wordDateScanFuel : Nat → List Nat → Option (Nat × Nat × Nat)
  | 0, _ => none
  | _ + 1, [] => none
  | fuel + 1, c :: rest =>
    match matchWordDateAt (c :: rest) with
    | some (d, mw, y, restAfter) =>
      match month_names.find? (fun p => decide (p.1 = lowerL mw)) with
      | some p =>
        if validDate y p.2 d then some (y, p.2, d) else wordDateScanFuel fuel restAfter
      | none => wordDateScanFuel fuel restAfter
    | none => wordDateScanFuel fuel rest

/-- Strategy 2 of `get_date_from_line` over the whole text. -/
def wordDateScan (l : List Nat) : Option (Nat × Nat × Nat) :=
  wordDateScanFuel l.length l

/-- `get_date_from_line(text)` from `import_invoice.py`, returning
`(year, month, day)`: strategy 1 tries only the first numeric
`DD.MM.YYYY`-shaped match and falls through to strategy 2 when that first
match is not a valid calendar date; strategy 2 scans all word-form matches
and returns the first valid one. -/
def get_date_from_line (text : List Nat) : Option (Nat × Nat × Nat) :=
  match firstNumDate text with
  | some (d, m, y) => if validDate y m d then some (y, m, d) else wordDateScan text
  | none => wordDateScan text

end Invoice

namespace Invoice

/-- One row of `df_invoice_reg` built by `extract_invoice_data`: invoice
number as a NaN-free lowercased string column, parsed date, supplier,
rounded amount, and the precomputed `Контроль оплаты` (date + 21 days). -/
structure InvRow where
  invoiceNo : List Nat
  invoiceDate : Option Nat
  supplier : Option (List Nat)
  amount : Option Int
  control : Option Nat
deriving DecidableEq

/-- `pd.concat` row alignment: the registry-only columns of a freshly
extracted invoice row are NaN, in particular `№ синей накладной`. -/
def invToRegRow (i : InvRow) : RegRow :=
  { invoiceNo := i.invoiceNo, amount := i.amount, paymentStatus := none,
    obj := none, tmc := none, idBitrix := none, taskId := none,
    supplier := i.supplier, invoiceDate := i.invoiceDate, control := i.control,
    ledger := none }

/-- `.str.extract(r'(\d+)')` followed by `pd.to_numeric`: the first digit
run of the string, as a number. -/
def firstDigitRun (l : List Nat) : Option Nat :=
  let ds := (l.dropWhile (fun c => !isDigitCp c)).takeWhile isDigitCp
  if ds = [] then none else some (natFromDigits ds)

/-- State-machine form of `re.findall(r'[А-ЯЁ]+', s)`: `cur` accumulates the
current uppercase-Cyrillic run in reverse. -/
def cyrRunsGo : List Nat → List Nat → List (List Nat)
  | [], cur => if cur = [] then [] else [cur.reverse]
  | c :: rest, cur =>
    if isCyrUpperCp c then cyrRunsGo rest (c :: cur)
    else if cur = [] then cyrRunsGo rest []
    else cur.reverse :: cyrRunsGo rest []

/-- `re.findall(r'[А-ЯЁ]+', s)`. -/
def cyrUpperRuns (l : List Nat) : List (List Nat) := cyrRunsGo l []

/-- `Series.max()` with NaN skipped; `none` when no value is present. -/
def max_of_opts (l : List (Option Nat)) : Option Nat :=
  l.foldl
    (fun acc o =>
      match acc, o with
      | none, x => x
      | some a, none => some a
      | some a, some b => some (max a b))
    none

/-- `df_register.loc[df_register['№ синей накладной'].isna(), ...] = new_numbers`:
walk the rows, handing the next generated number to each row whose ledger
number is NaN. -/
def fillLedgers : List RegRow → List (List Nat) → List RegRow
  | [], _ => []
  | r :: rs, nums =>
    if r.ledger = none then
      match nums with
      | n :: ns => { r with ledger := some n } :: fillLedgers rs ns
      | [] => r :: fillLedgers rs []
    else r :: fillLedgers rs nums

/-- `update_register_with_new_invoices(df_register, df_invoice_reg)` from
`import_invoice.py`: deduplicate the extracted invoices on
`('№ счета', 'Сумма')`, keep those whose key joins no registry row
(`_merge == 'left_only'`), append them, then number every ledger-less row:
the numeric part continues from the maximum existing `\d+` suffix (or starts
at 1), the alphabetic part is the last `[А-ЯЁ]+` run of the FIRST row's
ledger value (`.loc[0]`; a missing value prints as `nan` in the f-string).
An empty extraction returns the no-op message; an empty concatenated frame
makes `.loc[0]` raise, caught as the error message. -/
def update_register_with_new_invoices (df_register : List RegRow)
    (df_invoice_reg : List InvRow) : Except (List Nat) (List RegRow) :=
  if df_invoice_reg = [] then
    .error (s2l "ℹ️ Нет новых счетов для добавления в реестр.")
  else
    let df_export_unique := dedup_by (fun i => (i.invoiceNo, i.amount)) df_invoice_reg
    let new_rows := df_export_unique.filter (fun i =>
      !(df_register.any (fun r => decide (r.invoiceNo = i.invoiceNo ∧ r.amount = i.amount))))
    let all := df_register ++ new_rows.map invToRegRow
    match all.head? with
    | none => .error (s2l "❌ Ошибка при обновлении реестра")
    | some first =>
      let last_number := max_of_opts (all.map (fun r => r.ledger.bind firstDigitRun))
      let start_num := match last_number with | some n => n + 1 | none => 1
      let nan_count := (all.filter (fun r => decide (r.ledger = none))).length
      let last_pfx := ((first.ledger).bind (fun s => (cyrUpperRuns s).getLast?)).getD (s2l "nan")
      let new_numbers := (List.range nan_count).map
        (fun j => last_pfx ++ [45] ++ digitsOf (start_num + j))
      .ok (fillLedgers all new_numbers)

end Invoice

/-! ## Row-level lemmas for the status merges -/

namespace OneC

theorem update_payment_status_row_terminal (d : List ExportRow) (r : RegRow)
    (h : isTerminal r.paymentStatus = true) :
    (update_payment_status_row d r).paymentStatus = r.paymentStatus := by
  unfold update_payment_status_row
  simp [h]

theorem update_payment_status_row_nochange (d : List ExportRow) (r : RegRow)
    (h : (update_payment_status_row d r).paymentStatus ≠ r.paymentStatus) :
    lookupStatus1C d r ≠ none := by
  intro hnone
  apply h
  unfold update_payment_status_row
  simp [hnone]

theorem lookupStatus1C_set_status (d : List ExportRow) (r : RegRow)
    (s : Option (List Nat)) :
    lookupStatus1C d { r with paymentStatus := s } = lookupStatus1C d r := rfl

theorem update_payment_status_row_idem (d : List ExportRow) (r : RegRow) :
    update_payment_status_row d (update_payment_status_row d r) =
      update_payment_status_row d r := by
  unfold update_payment_status_row
  cases hl : lookupStatus1C d r with
  | none => simp [hl]
  | some s =>
    by_cases ht : isTerminal r.paymentStatus
    · simp [hl, ht]
    · simp only [hl, ht, Option.isSome_some, Bool.not_false, Bool.and_true,
        if_true, lookupStatus1C_set_status]
      by_cases hs : isTerminal (some s)
      · simp [hs]
      · simp [hs, hl]

end OneC

namespace Bitrix

theorem update_register_payment_status_bitrix_row_terminal
    (d : List BitrixRow) (r : RegRow)
    (h : OneC.isTerminal r.paymentStatus = true) :
    (update_register_payment_status_bitrix_row d r).paymentStatus =
      r.paymentStatus := by
  unfold update_register_payment_status_bitrix_row
  simp [h]

theorem update_register_payment_status_bitrix_row_nochange
    (d : List BitrixRow) (r : RegRow)
    (h : (update_register_payment_status_bitrix_row d r).paymentStatus ≠
      r.paymentStatus) :
    (lookupBitrix d r).bind (fun b => b.newStatus) ≠ none := by
  intro hnone
  apply h
  unfold update_register_payment_status_bitrix_row
  simp [hnone]

end Bitrix

/-- C1: for every registry row whose current `Статус оплаты` is in the
terminal set `{Оплачено, Подготовлено}`, neither `update_payment_status`
(1C) nor `update_register_payment_status_bitrix` changes that row's status,
regardless of the external record's status value; and a row's status is
updated only when the left join on `('№ счета', 'Сумма')` produced a
non-null external status. -/
theorem claim_C1_status_monotonicity
    (df_export : List OneC.ExportRow) (df_bitrix : List Bitrix.BitrixRow)
    (df_register : List RegRow) (i : Nat) (hi : i < df_register.length) :
    (OneC.isTerminal (df_register.getD i dRow).paymentStatus = true →
      ((OneC.update_payment_status df_export df_register).getD i dRow).paymentStatus
        = (df_register.getD i dRow).paymentStatus
      ∧ ((Bitrix.update_register_payment_status_bitrix df_register df_bitrix).getD i
          dRow).paymentStatus = (df_register.getD i dRow).paymentStatus)
    ∧ (((OneC.update_payment_status df_export df_register).getD i dRow).paymentStatus
          ≠ (df_register.getD i dRow).paymentStatus →
        OneC.lookupStatus1C (dedup_by (fun e => (e.invoiceNo, e.amount)) df_export)
          (df_register.getD i dRow) ≠ none)
    ∧ (((Bitrix.update_register_payment_status_bitrix df_register df_bitrix).getD i
          dRow).paymentStatus ≠ (df_register.getD i dRow).paymentStatus →
        (Bitrix.lookupBitrix (dedup_by (fun b => (b.invoiceNo, b.amount)) df_bitrix)
          (df_register.getD i dRow)).bind (fun b => b.newStatus) ≠ none) := by
  rw [OneC.update_payment_status, Bitrix.update_register_payment_status_bitrix,
    getD_map_of_lt _ _ _ hi dRow, getD_map_of_lt _ _ _ hi dRow]
  exact ⟨fun h =>
      ⟨OneC.update_payment_status_row_terminal _ _ h,
       Bitrix.update_register_payment_status_bitrix_row_terminal _ _ h⟩,
    fun h => OneC.update_payment_status_row_nochange _ _ h,
    fun h => Bitrix.update_register_payment_status_bitrix_row_nochange _ _ h⟩


/-- Fixture: a registry row already in the terminal status `Оплачено`. -/
def wRegC1 : RegRow :=
  { dRow with
      invoiceNo := s2l "5"
      amount := some 100
      paymentStatus := some (s2l "Оплачено") }

/-- Fixture: a 1C export row for the same key with a different status. -/
def wExpC1 : OneC.ExportRow :=
  { invoiceNo := s2l "5", amount := some 100, status := some (s2l "Черновик") }

/-- Fixture: a Bitrix row for the same key with a different status. -/
def wBxC1 : Bitrix.BitrixRow :=
  { id := none
    things := none
    object := none
    invoiceNo := some (s2l "5")
    amount := some 100
    newStatus := some (s2l "Утверждена")
    taskId := none }

/-- C1 witness: the concrete terminal row keeps its status under both
merges even though both external tables carry a different status for its
key. -/
theorem claim_C1_status_monotonicity_witness :
    ((OneC.update_payment_status [wExpC1] [wRegC1]).getD 0 dRow).paymentStatus
        = some (s2l "Оплачено")
    ∧ ((Bitrix.update_register_payment_status_bitrix [wRegC1] [wBxC1]).getD 0
        dRow).paymentStatus = some (s2l "Оплачено") := by
  have h := claim_C1_status_monotonicity [wExpC1] [wBxC1] [wRegC1] 0 (by decide)
  have h1 := h.1 (by decide)
  exact ⟨by rw [h1.1]; decide, by rw [h1.2]; decide⟩

/-- C3: the bank-statement merge is idempotent: applying
`update_payment_status` twice with the same export yields the same registry
as applying it once. -/
theorem claim_C3_idempotence (df_export : List OneC.ExportRow)
    (df_register : List RegRow) :
    OneC.update_payment_status df_export
        (OneC.update_payment_status df_export df_register) =
      OneC.update_payment_status df_export df_register := by
  unfold OneC.update_payment_status
  rw [List.map_map]
  exact List.map_congr_left fun r _ =>
    OneC.update_payment_status_row_idem _ r

/-! ## Row-level lemmas for the fill-only merges -/

namespace Bitrix

theorem clean_some_iff (t : Option (List Nat)) (ws : List (List Nat)) :
    clean_text_from_stop_words_precise t ws ≠ none ↔ t ≠ none := by
  cases t <;> simp [clean_text_from_stop_words_precise]

theorem obj_row_obj_preserved (d : List BitrixRow) (r : RegRow)
    (h : r.obj ≠ none) :
    (update_register_id_payment_object_bitrix_row d r).obj = r.obj := by
  unfold update_register_id_payment_object_bitrix_row
  rcases hob : (lookupBitrix d r).bind (fun b => b.object) with _ | v <;>
    rcases hid : (lookupBitrix d r).bind (fun b => b.id) with _ | w <;>
    rcases htm : clean_text_from_stop_words_precise
      ((lookupBitrix d r).bind (fun b => b.things)) stop_words with _ | u <;>
    simp [hob, hid, htm, h] <;> split_ifs <;> simp_all

theorem obj_row_obj_changed (d : List BitrixRow) (r : RegRow)
    (h : (update_register_id_payment_object_bitrix_row d r).obj ≠ r.obj) :
    r.obj = none ∧ (lookupBitrix d r).bind (fun b => b.object) ≠ none := by
  by_cases hob : (lookupBitrix d r).bind (fun b => b.object) = none
  · exfalso
    apply h
    unfold update_register_id_payment_object_bitrix_row
    rcases hid : (lookupBitrix d r).bind (fun b => b.id) with _ | w <;>
      rcases htm : clean_text_from_stop_words_precise
        ((lookupBitrix d r).bind (fun b => b.things)) stop_words with _ | u <;>
      simp [hob, hid, htm] <;> split_ifs <;> simp_all
  · refine ⟨?_, hob⟩
    by_cases hobj : r.obj = none
    · exact hobj
    · exact absurd (obj_row_obj_preserved d r hobj) h

theorem obj_row_id_preserved (d : List BitrixRow) (r : RegRow)
    (h : r.idBitrix ≠ none) :
    (update_register_id_payment_object_bitrix_row d r).idBitrix = r.idBitrix := by
  unfold update_register_id_payment_object_bitrix_row
  rcases hob : (lookupBitrix d r).bind (fun b => b.object) with _ | v <;>
    rcases hid : (lookupBitrix d r).bind (fun b => b.id) with _ | w <;>
    rcases htm : clean_text_from_stop_words_precise
      ((lookupBitrix d r).bind (fun b => b.things)) stop_words with _ | u <;>
    simp [hob, hid, htm, h] <;> split_ifs <;> simp_all

theorem obj_row_id_changed (d : List BitrixRow) (r : RegRow)
    (h : (update_register_id_payment_object_bitrix_row d r).idBitrix ≠ r.idBitrix) :
    r.idBitrix = none ∧ (lookupBitrix d r).bind (fun b => b.id) ≠ none := by
  by_cases hid : (lookupBitrix d r).bind (fun b => b.id) = none
  · exfalso
    apply h
    unfold update_register_id_payment_object_bitrix_row
    rcases hob : (lookupBitrix d r).bind (fun b => b.object) with _ | v <;>
      rcases htm : clean_text_from_stop_words_precise
        ((lookupBitrix d r).bind (fun b => b.things)) stop_words with _ | u <;>
      simp [hob, hid, htm] <;> split_ifs <;> simp_all
  · refine ⟨?_, hid⟩
    by_cases hidb : r.idBitrix = none
    · exact hidb
    · exact absurd (obj_row_id_preserved d r hidb) h

theorem obj_row_tmc_preserved (d : List BitrixRow) (r : RegRow)
    (h : r.tmc ≠ none) :
    (update_register_id_payment_object_bitrix_row d r).tmc = r.tmc := by
  unfold update_register_id_payment_object_bitrix_row
  rcases hob : (lookupBitrix d r).bind (fun b => b.object) with _ | v <;>
    rcases hid : (lookupBitrix d r).bind (fun b => b.id) with _ | w <;>
    rcases htm : clean_text_from_stop_words_precise
      ((lookupBitrix d r).bind (fun b => b.things)) stop_words with _ | u <;>
    simp [hob, hid, htm, h] <;> split_ifs <;> simp_all

theorem obj_row_tmc_changed (d : List BitrixRow) (r : RegRow)
    (h : (update_register_id_payment_object_bitrix_row d r).tmc ≠ r.tmc) :
    r.tmc = none ∧ (lookupBitrix d r).bind (fun b => b.things) ≠ none := by
  by_cases htm : clean_text_from_stop_words_precise
      ((lookupBitrix d r).bind (fun b => b.things)) stop_words = none
  · exfalso
    apply h
    unfold update_register_id_payment_object_bitrix_row
    rcases hob : (lookupBitrix d r).bind (fun b => b.object) with _ | v <;>
      rcases hid : (lookupBitrix d r).bind (fun b => b.id) with _ | w <;>
      simp [hob, hid, htm] <;> split_ifs <;> simp_all
  · refine ⟨?_, ((clean_some_iff _ _).mp htm)⟩
    by_cases htmc : r.tmc = none
    · exact htmc
    · exact absurd (obj_row_tmc_preserved d r htmc) h

theorem task_row_preserved (d : List BitrixRow) (r : RegRow)
    (h1 : r.taskId ≠ none) (h2 : r.taskId ≠ some []) :
    (update_register_id_task_bitrix_row d r).taskId = r.taskId := by
  unfold update_register_id_task_bitrix_row
  rcases ht : r.taskId with _ | v
  · exact absurd ht h1
  · have hv : v ≠ [] := by
      intro hv
      exact h2 (ht.trans (by rw [hv]))
    simp [ht, hv]

theorem task_row_changed (d : List BitrixRow) (r : RegRow)
    (h : (update_register_id_task_bitrix_row d r).taskId ≠ r.taskId) :
    r.taskId = none ∨ r.taskId = some [] := by
  by_cases h1 : r.taskId = none
  · exact Or.inl h1
  · by_cases h2 : r.taskId = some []
    · exact Or.inr h2
    · exact absurd (task_row_preserved d r h1 h2) h

end Bitrix

/-- C2: the fill-only invariant.  For every registry row: a non-empty
`Объект`, `ТМЦ` or `ID_Счет_Bitrix` value is never replaced by
`update_register_id_payment_object_bitrix`, and each of those fields changes
only when it was null and the joined Bitrix row carries a value for it; a
`№ задачи Битрикс` value that is neither null nor the empty string is never
replaced by `update_register_id_task_bitrix`, and that field changes only
when it was null or empty. -/
theorem claim_C2_fill_only (df_bitrix : List Bitrix.BitrixRow)
    (df_register : List RegRow) (i : Nat) (hi : i < df_register.length) :
    ((df_register.getD i dRow).obj ≠ none →
      ((Bitrix.update_register_id_payment_object_bitrix df_register df_bitrix).getD i
        dRow).obj = (df_register.getD i dRow).obj)
    ∧ ((df_register.getD i dRow).tmc ≠ none →
      ((Bitrix.update_register_id_payment_object_bitrix df_register df_bitrix).getD i
        dRow).tmc = (df_register.getD i dRow).tmc)
    ∧ ((df_register.getD i dRow).idBitrix ≠ none →
      ((Bitrix.update_register_id_payment_object_bitrix df_register df_bitrix).getD i
        dRow).idBitrix = (df_register.getD i dRow).idBitrix)
    ∧ ((df_register.getD i dRow).taskId ≠ none →
        (df_register.getD i dRow).taskId ≠ some [] →
      ((Bitrix.update_register_id_task_bitrix df_register df_bitrix).getD i
        dRow).taskId = (df_register.getD i dRow).taskId)
    ∧ (((Bitrix.update_register_id_payment_object_bitrix df_register df_bitrix).getD i
          dRow).obj ≠ (df_register.getD i dRow).obj →
        (df_register.getD i dRow).obj = none
        ∧ (Bitrix.lookupBitrix (dedup_by (fun b => (b.invoiceNo, b.amount)) df_bitrix)
            (df_register.getD i dRow)).bind (fun b => b.object) ≠ none)
    ∧ (((Bitrix.update_register_id_payment_object_bitrix df_register df_bitrix).getD i
          dRow).tmc ≠ (df_register.getD i dRow).tmc →
        (df_register.getD i dRow).tmc = none
        ∧ (Bitrix.lookupBitrix (dedup_by (fun b => (b.invoiceNo, b.amount)) df_bitrix)
            (df_register.getD i dRow)).bind (fun b => b.things) ≠ none)
    ∧ (((Bitrix.update_register_id_payment_object_bitrix df_register df_bitrix).getD i
          dRow).idBitrix ≠ (df_register.getD i dRow).idBitrix →
        (df_register.getD i dRow).idBitrix = none
        ∧ (Bitrix.lookupBitrix (dedup_by (fun b => (b.invoiceNo, b.amount)) df_bitrix)
            (df_register.getD i dRow)).bind (fun b => b.id) ≠ none)
    ∧ (((Bitrix.update_register_id_task_bitrix df_register df_bitrix).getD i
          dRow).taskId ≠ (df_register.getD i dRow).taskId →
        (df_register.getD i dRow).taskId = none
        ∨ (df_register.getD i dRow).taskId = some []) := by
  rw [Bitrix.update_register_id_payment_object_bitrix,
    Bitrix.update_register_id_task_bitrix,
    getD_map_of_lt _ _ _ hi dRow, getD_map_of_lt _ _ _ hi dRow]
  exact ⟨fun h => Bitrix.obj_row_obj_preserved _ _ h,
    fun h => Bitrix.obj_row_tmc_preserved _ _ h,
    fun h => Bitrix.obj_row_id_preserved _ _ h,
    fun h1 h2 => Bitrix.task_row_preserved _ _ h1 h2,
    fun h => Bitrix.obj_row_obj_changed _ _ h,
    fun h => Bitrix.obj_row_tmc_changed _ _ h,
    fun h => Bitrix.obj_row_id_changed _ _ h,
    fun h => Bitrix.task_row_changed _ _ h⟩

/-- Fixture: a registry row with a non-empty `Объект` and task number. -/
def wRegC2 : RegRow :=
  { dRow with
      invoiceNo := s2l "9"
      amount := some 50
      obj := some (s2l "Склад")
      taskId := some (s2l "77") }

/-- Fixture: a matching Bitrix row offering different fill values. -/
def wBxC2 : Bitrix.BitrixRow :=
  { id := some 7
    things := some (s2l "Доска")
    object := some (s2l "Офис")
    invoiceNo := some (s2l "9")
    amount := some 50
    newStatus := none
    taskId := some (s2l "33") }

/-- C2 witness: the concrete row keeps its non-empty `Объект` and its
non-empty task number although the joined Bitrix row offers replacements. -/
theorem claim_C2_fill_only_witness :
    ((Bitrix.update_register_id_payment_object_bitrix [wRegC2] [wBxC2]).getD 0
        dRow).obj = some (s2l "Склад")
    ∧ ((Bitrix.update_register_id_task_bitrix [wRegC2] [wBxC2]).getD 0
        dRow).taskId = some (s2l "77") := by
  have h := claim_C2_fill_only [wBxC2] [wRegC2] 0 (by decide)
  exact ⟨by rw [h.1 (by decide)]; decide,
    by rw [h.2.2.2.1 (by decide) (by decide)]; decide⟩

/-- C5: for every registry row with a non-null `Дата счета`,
`update_date_payment` sets `Контроль оплаты` to the invoice date plus the
per-supplier day offset looked up by case-insensitive, whitespace-trimmed
supplier name, defaulting to 0 days for unknown suppliers; in particular the
key `ИП Шайдулин` maps to 30 days, 2024-01-10 plus 30 days is 2024-02-09,
and an unmapped supplier gets offset 0 (control date equal to the invoice
date). -/
theorem claim_C5_payment_control_date :
    (∀ (df_register : List RegRow) (i : Nat), i < df_register.length →
      ∀ d, (df_register.getD i dRow).invoiceDate = some d →
        ((OneC.update_date_payment df_register).getD i dRow).control
          = some (d + OneC.days_for (df_register.getD i dRow).supplier))
    ∧ OneC.days_for (some (s2l "ИП Шайдулин")) = 30
    ∧ rataDie 2024 1 10 + 30 = rataDie 2024 2 9
    ∧ OneC.days_for (some (s2l "ООО Ромашка")) = 0 := by
  refine ⟨?_, by decide, by decide, by decide⟩
  intro reg i hi d hd
  rw [OneC.update_date_payment, getD_map_of_lt _ _ _ hi dRow,
    OneC.update_date_payment_row, hd]

/-- Fixture: a registry row of supplier `ИП Шайдулин` dated 2024-01-10. -/
def wRegC5 : RegRow :=
  { dRow with
      supplier := some (s2l "ИП Шайдулин")
      invoiceDate := some (rataDie 2024 1 10) }

/-- C5 witness: the fixture row receives control date 2024-02-09. -/
theorem claim_C5_payment_control_date_witness :
    ((OneC.update_date_payment [wRegC5]).getD 0 dRow).control
      = some (rataDie 2024 2 9) := by
  have h := claim_C5_payment_control_date.1 [wRegC5] 0 (by decide)
    (rataDie 2024 1 10) (by decide)
  rw [h]
  decide

/-- Fixture: a registry with existing ledger numbers `Ю-7` and `Ю-9`. -/
def c4Register : List RegRow :=
  [{ dRow with
      invoiceNo := s2l "1"
      amount := some 100
      ledger := some (s2l "Ю-7") },
   { dRow with
      invoiceNo := s2l "2"
      amount := some 200
      ledger := some (s2l "Ю-9") }]

/-- Fixture: two freshly extracted invoices whose keys match no registry
row, in this input order. -/
def c4Invoices : List Invoice.InvRow :=
  [{ invoiceNo := s2l "7", invoiceDate := none, supplier := none,
     amount := some 700, control := none },
   { invoiceNo := s2l "8", invoiceDate := none, supplier := none,
     amount := some 800, control := none }]

/-- C4: with existing ledger numbers `{Ю-7, Ю-9}` and two newly admitted
rows lacking a number, `update_register_with_new_invoices` assigns `Ю-10`
to the first new row and `Ю-11` to the second, in input order: the numeric
suffix continues from the maximum existing suffix 9 and the alphabetic part
is the shared prefix `Ю`. -/
theorem claim_C4_identifier_allocation :
    (Invoice.update_register_with_new_invoices c4Register c4Invoices).toOption.map
        (fun l => l.map (fun r => r.ledger))
      = some [some (s2l "Ю-7"), some (s2l "Ю-9"),
              some (s2l "Ю-10"), some (s2l "Ю-11")] := by
  decide

namespace Invoice

theorem searchNaSummu_none_of_no_phrase (l : List Nat)
    (h : hasPhrase l = false) : searchNaSummu l = none := by
  induction l with
  | nil => rfl
  | cons c rest ih =>
    simp only [hasPhrase, Bool.or_eq_false_iff] at h
    unfold searchNaSummu
    simp [h.1, ih h.2]

end Invoice

/-- C6: `extract_amount` on a text containing `на сумму 12 345,67 руб`
yields `12345.67` (decimal comma normalized, separators stripped); on every
text without the phrase it yields `none`; on a text where the remainder
after the phrase does not parse as a number it also yields `none` (the
function is total, so it never raises). -/
theorem claim_C6_amount_extraction :
    Invoice.extract_amount (s2l "Оплата на сумму 12 345,67 руб по счету")
        = some (mkRat 1234567 100)
    ∧ (mkRat 1234567 100 : ℚ) = 1234567 / 100
    ∧ (∀ text, Invoice.hasPhrase text = false →
        Invoice.extract_amount text = none)
    ∧ Invoice.extract_amount (s2l "на сумму руб.") = none := by
  refine ⟨by decide, by rw [Rat.mkRat_eq_div]; norm_num, ?_, by decide⟩
  intro t h
  unfold Invoice.extract_amount
  rw [Invoice.searchNaSummu_none_of_no_phrase t h]

/-- C6 witness: a concrete phrase-free text yields `none`. -/
theorem claim_C6_amount_extraction_witness :
    Invoice.hasPhrase (s2l "привет мир") = false
    ∧ Invoice.extract_amount (s2l "привет мир") = none :=
  ⟨by decide, claim_C6_amount_extraction.2.2.1 _ (by decide)⟩

/-- C7: when the registry lacks the required `№ задачи Битрикс` column,
`fill_invoice_numbers_from_bitrix` raises `KeyError` (the `Except.error`),
the Bitrix `run_pipeline` reports the failure message built from it instead
of retrying, and `update_excel_file` is never invoked on that run (second
component `none`), so no registry row is modified. -/
theorem claim_C7_schema_violation (df_bitrix : List Bitrix.BitrixRow)
    (df_register : Bitrix.RegFrame) (h : df_register.hasTaskCol = false) :
    Bitrix.fill_invoice_numbers_from_bitrix df_register df_bitrix
        = Except.error Bitrix.key_error_msg
    ∧ (Bitrix.run_pipeline df_bitrix df_register).2 = none
    ∧ (Bitrix.run_pipeline df_bitrix df_register).1
        = s2l "❌ Ошибка при обработке: " ++ [34] ++ Bitrix.key_error_msg ++ [34] := by
  have hf : Bitrix.fill_invoice_numbers_from_bitrix df_register df_bitrix
      = Except.error Bitrix.key_error_msg := by
    unfold Bitrix.fill_invoice_numbers_from_bitrix
    simp [h]
  refine ⟨hf, ?_, ?_⟩ <;> simp [Bitrix.run_pipeline, hf]

/-- C7 witness: a concrete frame without the task column. -/
theorem claim_C7_schema_violation_witness :
    (Bitrix.run_pipeline [] { hasTaskCol := false, rows := [dRow] }).2 = none :=
  (claim_C7_schema_violation [] { hasTaskCol := false, rows := [dRow] } rfl).2.1

/-- C8: evaluation of the stop-word cleaner at the inputs deciding the
claim.  The registry-bound text `Счет для АХЧ` keeps the Cyrillic word
`счет` (only `ахч` is removed), because the first and third entries of the
source's stop list are spelled with LATIN SMALL LETTER C; the homoglyph
variant `cчет для АХЧ` (Latin `c`, codepoint 99) IS cleaned to `для`; and
the two spellings differ precisely in that first codepoint. -/
theorem claim_C8_stop_word_evaluation :
    Bitrix.clean_text_from_stop_words_precise (some (s2l "Счет для АХЧ"))
        Bitrix.stop_words = some (s2l "счет для")
    ∧ Bitrix.clean_text_from_stop_words_precise (some (s2l "cчет для АХЧ"))
        Bitrix.stop_words = some (s2l "для")
    ∧ (s2l "cчет").head? = some 99 ∧ (s2l "счет").head? = some 1089 := by
  decide

namespace Invoice

theorem wordDateScanFuel_sound :
    ∀ (fuel : Nat) (l : List Nat) (y m d : Nat),
      wordDateScanFuel fuel l = some (y, m, d) → validDate y m d = true := by
  intro fuel
  induction fuel with
  | zero =>
    intro l y m d h
    simp [wordDateScanFuel] at h
  | succ n ih =>
    intro l y m d h
    cases l with
    | nil => simp [wordDateScanFuel] at h
    | cons c rest =>
      simp only [wordDateScanFuel] at h
      split at h
      · split at h
        · split at h
          · rename_i hvalid
            have he := Option.some.inj h
            simp only [Prod.mk.injEq] at he
            obtain ⟨h1, h2, h3⟩ := he
            rw [h1, h2, h3] at hvalid
            exact hvalid
          · exact ih _ _ _ _ h
        · exact ih _ _ _ _ h
      · exact ih _ _ _ _ h

end Invoice

namespace Invoice

theorem get_date_from_line_sound (t : List Nat) (y m d : Nat)
    (h : get_date_from_line t = some (y, m, d)) : validDate y m d = true := by
  unfold get_date_from_line at h
  rcases hf : firstNumDate t with _ | ⟨dd, mm, yy⟩
  · rw [hf] at h
    exact wordDateScanFuel_sound _ _ _ _ _ h
  · rw [hf] at h
    by_cases hv : validDate yy mm dd = true
    · simp only [hv, if_true] at h
      have he := Option.some.inj h
      simp only [Prod.mk.injEq] at he
      obtain ⟨h1, h2, h3⟩ := he
      rw [← h1, ← h2, ← h3]
      exact hv
    · simp only [hv, if_false] at h
      exact wordDateScanFuel_sound _ _ _ _ _ h

end Invoice

/-- C9 counterexample: in the text `31.02.2024 15.03.2024` the only
syntactically valid calendar date is 15 March 2024 (the standalone text
`15.03.2024` parses to exactly that date), yet `get_date_from_line` returns
`none` on the full text, because the numeric strategy inspects only the
first `DD.MM.YYYY`-shaped match (`31.02.2024`, an invalid date) and the word
strategy finds no Russian month name — so the function does NOT return the
first syntactically valid calendar date found in the text. -/
theorem claim_C9_counterexample :
    Invoice.get_date_from_line (s2l "31.02.2024 15.03.2024") = none
    ∧ Invoice.get_date_from_line (s2l "15.03.2024") = some (2024, 3, 15)
    ∧ validDate 2024 3 15 = true
    ∧ validDate 2024 2 31 = false := by
  decide

/-- C9 amended: `get_date_from_line` tries the numeric strategy on the
FIRST `DD.MM.YYYY`-shaped match only — if that first match is a valid
calendar date it is returned, otherwise the numeric strategy is abandoned
and the word strategy (which scans all `day + Russian month name + year`
matches and returns the first valid one) decides the result; every returned
date is a syntactically valid calendar date, and invalid day/month
combinations are rejected without raising (the function is total). -/
theorem claim_C9_date_extraction_amended :
    (∀ t y m d, Invoice.get_date_from_line t = some (y, m, d) →
      validDate y m d = true)
    ∧ (∀ t dd mm yy, Invoice.firstNumDate t = some (dd, mm, yy) →
        validDate yy mm dd = true →
        Invoice.get_date_from_line t = some (yy, mm, dd))
    ∧ (∀ t dd mm yy, Invoice.firstNumDate t = some (dd, mm, yy) →
        validDate yy mm dd = false →
        Invoice.get_date_from_line t = Invoice.wordDateScan t) := by
  refine ⟨Invoice.get_date_from_line_sound, ?_, ?_⟩
  · intro t dd mm yy hf hv
    unfold Invoice.get_date_from_line
    rw [hf]
    simp [hv]
  · intro t dd mm yy hf hv
    unfold Invoice.get_date_from_line
    rw [hf]
    simp [hv]

/-- C9 witness: the first numeric match of `07.04.2023` is valid and is
returned. -/
theorem claim_C9_date_extraction_amended_witness :
    Invoice.get_date_from_line (s2l "07.04.2023") = some (2023, 4, 7) :=
  claim_C9_date_extraction_amended.2.1 (s2l "07.04.2023") 7 4 2023
    (by decide) (by decide)

/-! ## Lowercase invariance of the stop-word cleaner -/

theorem lowerCp_idem (n : Nat) : lowerCp (lowerCp n) = lowerCp n := by
  simp only [lowerCp]
  split_ifs <;> omega

namespace Bitrix

theorem mem_removeStopsFuel (ws : List (List Nat)) :
    ∀ (fuel : Nat) (prev : Option Nat) (l : List Nat) (c : Nat),
      c ∈ removeStopsFuel ws fuel prev l → c ∈ l := by
  intro fuel
  induction fuel with
  | zero => intro prev l c h; exact h
  | succ n ih =>
    intro prev l c h
    cases l with
    | nil => simp [removeStopsFuel] at h
    | cons c0 rest =>
      simp only [removeStopsFuel] at h
      split at h
      · exact List.mem_cons_of_mem c0 (List.drop_subset _ _ (ih _ _ _ h))
      · rcases List.mem_cons.mp h with h0 | hm
        · exact h0 ▸ List.mem_cons_self c0 rest
        · exact List.mem_cons_of_mem c0 (ih _ _ _ hm)

end Bitrix

theorem mem_collapseWsAux :
    ∀ (l : List Nat) (b : Bool) (c : Nat),
      c ∈ collapseWsAux l b → c = 32 ∨ c ∈ l := by
  intro l
  induction l with
  | nil => intro b c h; simp [collapseWsAux] at h
  | cons c0 rest ih =>
    intro b c h
    simp only [collapseWsAux] at h
    split at h
    · split at h
      · rcases ih _ _ h with h32 | hm
        · exact Or.inl h32
        · exact Or.inr (List.mem_cons_of_mem c0 hm)
      · rcases List.mem_cons.mp h with h0 | hm
        · exact Or.inl h0
        · rcases ih _ _ hm with h32 | hmm
          · exact Or.inl h32
          · exact Or.inr (List.mem_cons_of_mem c0 hmm)
    · rcases List.mem_cons.mp h with h0 | hm
      · exact Or.inr (h0 ▸ List.mem_cons_self c0 rest)
      · rcases ih _ _ hm with h32 | hmm
        · exact Or.inl h32
        · exact Or.inr (List.mem_cons_of_mem c0 hmm)

theorem mem_stripL (l : List Nat) (c : Nat) (h : c ∈ stripL l) : c ∈ l := by
  unfold stripL at h
  rw [List.mem_reverse] at h
  have h2 := (List.dropWhile_sublist _).subset h
  rw [List.mem_reverse] at h2
  exact (List.dropWhile_sublist _).subset h2

namespace Bitrix

theorem clean_lower_fixed (ws : List (List Nat)) (t s : List Nat)
    (h : clean_text_from_stop_words_precise (some t) ws = some s) :
    lowerL s = s := by
  have hs : s = stripL (collapseWs (removeStops ws (lowerL t))) :=
    (Option.some.inj h).symm
  have hall : ∀ c ∈ s, lowerCp c = c := by
    intro c hc
    rw [hs] at hc
    have h1 := mem_stripL _ _ hc
    rcases mem_collapseWsAux _ _ _ h1 with h32 | h2
    · rw [h32]
      decide
    · have h3 := mem_removeStopsFuel ws _ _ _ _ h2
      rcases List.mem_map.mp h3 with ⟨a, _, ha⟩
      rw [← ha]
      exact lowerCp_idem a
  rw [show lowerL s = s.map lowerCp from rfl,
    List.map_congr_left (g := id) hall, List.map_id]

theorem obj_row_tmc_written (d : List BitrixRow) (r : RegRow)
    (h : (update_register_id_payment_object_bitrix_row d r).tmc ≠ r.tmc) :
    ∃ s, (update_register_id_payment_object_bitrix_row d r).tmc = some s
      ∧ clean_text_from_stop_words_precise
          ((lookupBitrix d r).bind (fun b => b.things)) stop_words = some s := by
  rcases obj_row_tmc_changed d r h with ⟨hnone, hthings⟩
  rcases hx : (lookupBitrix d r).bind (fun b => b.things) with _ | x
  · exact absurd hx hthings
  · refine ⟨stripL (collapseWs (removeStops stop_words (lowerL x))), ?_,
      by simp [hx, clean_text_from_stop_words_precise]⟩
    unfold update_register_id_payment_object_bitrix_row
    rcases hob : (lookupBitrix d r).bind (fun b => b.object) with _ | v <;>
      rcases hid : (lookupBitrix d r).bind (fun b => b.id) with _ | w <;>
      simp [hob, hid, hx, hnone, clean_text_from_stop_words_precise] <;>
      split_ifs <;> simp_all

end Bitrix

/-- C10 (implicit): the stop-word cleaner lowercases the entire text, not
only the removed words — every non-null cleaned text is its own lowercase
(`lowerL`-fixed), even when it contains no stop word; the null input is
returned unchanged; a concrete stop-word-free text comes back entirely
lowercased; and consequently every value the Bitrix merge newly writes into
the `ТМЦ` field is entirely lowercase. -/
theorem claim_C10_tmc_lowercasing :
    (∀ t s, Bitrix.clean_text_from_stop_words_precise (some t) Bitrix.stop_words
        = some s → lowerL s = s)
    ∧ Bitrix.clean_text_from_stop_words_precise none Bitrix.stop_words = none
    ∧ Bitrix.clean_text_from_stop_words_precise (some (s2l "Стол ИКЕА"))
        Bitrix.stop_words = some (s2l "стол икеа")
    ∧ (∀ (df_bitrix : List Bitrix.BitrixRow) (df_register : List RegRow) (i : Nat),
        i < df_register.length →
        ((Bitrix.update_register_id_payment_object_bitrix df_register df_bitrix).getD i
            dRow).tmc ≠ (df_register.getD i dRow).tmc →
        ∃ s, ((Bitrix.update_register_id_payment_object_bitrix df_register
            df_bitrix).getD i dRow).tmc = some s ∧ lowerL s = s) := by
  refine ⟨fun t s h => Bitrix.clean_lower_fixed _ t s h, rfl, by decide, ?_⟩
  intro b reg i hi h
  rw [Bitrix.update_register_id_payment_object_bitrix,
    getD_map_of_lt _ _ _ hi dRow] at h ⊢
  rcases Bitrix.obj_row_tmc_written _ _ h with ⟨s, hset, hclean⟩
  refine ⟨s, hset, ?_⟩
  rcases hx : (Bitrix.lookupBitrix
      (dedup_by (fun b => (b.invoiceNo, b.amount)) b) (reg.getD i dRow)).bind
      (fun b => b.things) with _ | x
  · rw [hx] at hclean
    simp [Bitrix.clean_text_from_stop_words_precise] at hclean
  · rw [hx] at hclean
    exact Bitrix.clean_lower_fixed _ x s hclean

/-- Fixture: a registry row with an empty `ТМЦ` field. -/
def wRegC10 : RegRow :=
  { dRow with
      invoiceNo := s2l "3"
      amount := some 10 }

/-- Fixture: a matching Bitrix row whose `Things` text is mixed-case and
contains no stop word. -/
def wBxC10 : Bitrix.BitrixRow :=
  { id := none
    things := some (s2l "Стол ИКЕА")
    object := none
    invoiceNo := some (s2l "3")
    amount := some 10
    newStatus := none
    taskId := none }

/-- C10 witness: the concrete merge writes a fully lowercased `ТМЦ`
value. -/
theorem claim_C10_tmc_lowercasing_witness :
    ∃ s, ((Bitrix.update_register_id_payment_object_bitrix [wRegC10]
        [wBxC10]).getD 0 dRow).tmc = some s ∧ lowerL s = s :=
  claim_C10_tmc_lowercasing.2.2.2 [wBxC10] [wRegC10] 0 (by decide) (by decide)
